import Mathlib

/-!
Verification development for the marriage-hall image-gallery backend.

The embedding below translates the data model and the service operations of
the backend (src/src/models/Category.js, src/src/services/CategoryService.js,
src/src/services/ImageService.js, src/src/controllers and middleware) into
executable Lean definitions.  The document store is a pair of in-memory
lists, the remote asset host is an oracle argument (an `Option` upload
result, a `Bool` delete outcome), and every operation returns the new store
state together with an `Except`-style outcome, mirroring the thrown errors
of the services.
-/

deriving instance DecidableEq for Except

namespace MHall

/-- Error taxonomy of the service layer: plain `Error('... not found')`
throws, MongoDB duplicate-key errors (code 11000), Mongoose validation
errors, and failures of the remote asset host. -/
inductive Err where
  | notFound
  | duplicateKey
  | invalidData
  | upstream
deriving DecidableEq, Repr

/-- HTTP status the global error handler (src/src/middleware/errorHandler.js)
assigns to each error: duplicate-key errors go through
`handleDuplicateKeyError`, which builds `AppError(message, 400)`; Mongoose
validation errors go through `handleValidationError` (also 400); plain
`Error` objects carry no `statusCode` and fall through to `500`. -/
def errorHttpStatus : Err → Nat
  | Err.duplicateKey => 400
  | Err.invalidData => 400
  | _ => 500

/-- JS `String.prototype.toLowerCase`, per character. -/
def lowerStr (s : String) : String := ⟨s.data.map Char.toLower⟩

/-- JS `String.prototype.trim` (the Mongoose `trim: true` setter): strip
leading and trailing whitespace. -/
def trimChars (l : List Char) : List Char :=
  ((l.dropWhile Char.isWhitespace).reverse.dropWhile Char.isWhitespace).reverse

def trimStr (s : String) : String := ⟨trimChars s.data⟩

/-- Character class `[a-z0-9]` used by the slug regex. -/
def isSlugChar (c : Char) : Bool :=
  (decide ('a' ≤ c) && decide (c ≤ 'z')) || (decide ('0' ≤ c) && decide (c ≤ '9'))

/-- `replace(/[^a-z0-9]+/g, '-')`: each maximal run of characters outside
`[a-z0-9]` becomes a single hyphen.  The flag records whether the previous
output character was the hyphen of a still-open run. -/
def collapseAux : Bool → List Char → List Char
  | _, [] => []
  | prevHyphen, c :: cs =>
    if isSlugChar c then c :: collapseAux false cs
    else if prevHyphen then collapseAux true cs
    else '-' :: collapseAux true cs

/-- `replace(/(^-|-$)/g, '')` strips at most one hyphen at each edge; after
run collapsing the edges hold at most one. -/
def dropLeadingDash : List Char → List Char
  | '-' :: cs => cs
  | cs => cs

/-- Character-level slug computation of `categorySchema.pre('save')`. -/
def slugChars (s : String) : List Char :=
  (dropLeadingDash ((dropLeadingDash (collapseAux false (lowerStr s).data)).reverse)).reverse

/-- The slug transform of src/src/models/Category.js: lowercase, collapse
non-alphanumeric runs to single hyphens, strip edge hyphens. -/
def slugify (s : String) : String := ⟨slugChars s⟩

/-! ### Regular-expression matching

The services hand user-supplied terms to the MongoDB `$regex` operator /
JavaScript `RegExp`.  The engine is modelled here for the fragment those
call sites are exercised on in this development: patterns built from
literal characters and the `.` metacharacter, with unanchored search and
the optional `i` flag. -/

inductive RTok where
  | dot : RTok
  | lit : Char → RTok
deriving DecidableEq, Repr

def parseRegex (pattern : String) : List RTok :=
  pattern.data.map (fun c => if c == '.' then RTok.dot else RTok.lit c)

def tokMatches (ci : Bool) : RTok → Char → Bool
  | RTok.dot, _ => true
  | RTok.lit c, d => if ci then c.toLower == d.toLower else c == d

def matchHere (ci : Bool) : List RTok → List Char → Bool
  | [], _ => true
  | _ :: _, [] => false
  | t :: ts, c :: cs => tokMatches ci t c && matchHere ci ts cs

def searchFrom (ci : Bool) (ts : List RTok) : List Char → Bool
  | [] => matchHere ci ts []
  | c :: cs => matchHere ci ts (c :: cs) || searchFrom ci ts cs

/-- `new RegExp(pattern, flags).test(target)` for the modelled fragment. -/
def regexTest (ci : Bool) (pattern target : String) : Bool :=
  searchFrom ci (parseRegex pattern) target.data

/-- Literal (non-regex) containment, case-insensitive: the spec-side notion
"the record literally contains the term", used to compare against the
regex-based behaviour of the code. -/
def startsWithSeq : List Char → List Char → Bool
  | [], _ => true
  | _ :: _, [] => false
  | c :: cs, d :: ds => c == d && startsWithSeq cs ds

def containsSeq (needle : List Char) : List Char → Bool
  | [] => startsWithSeq needle []
  | d :: ds => startsWithSeq needle (d :: ds) || containsSeq needle ds

def containsLiteralCI (hay needle : String) : Bool :=
  containsSeq (lowerStr needle).data (lowerStr hay).data

/-! ### Sorting

MongoDB `.sort({field: ±1})`; an insertion sort with a boolean comparator. -/

def insertSorted {α : Type} (le : α → α → Bool) (x : α) : List α → List α
  | [] => [x]
  | y :: ys => if le x y then x :: y :: ys else y :: insertSorted le x ys

def insertionSort {α : Type} (le : α → α → Bool) : List α → List α
  | [] => []
  | x :: xs => insertSorted le x (insertionSort le xs)

/-! ### Data model (src/src/models/Category.js: categorySchema, imageSchema) -/

structure Category where
  id : Nat
  name : String
  description : String
  slug : String
  isActive : Bool
  imageCount : Nat
  createdAt : Nat
deriving DecidableEq, Repr

structure Image where
  id : Nat
  title : String
  description : String
  category : Nat
  cloudinaryId : String
  imageUrl : String
  thumbnailUrl : String
  tags : List String
  isActive : Bool
  isFeatured : Bool
  viewCount : Nat
  createdAt : Nat
deriving DecidableEq, Repr

/-- The document store: the two collections plus a fresh-id counter standing
in for MongoDB ObjectId generation. -/
structure DB where
  categories : List Category
  images : List Image
  nextId : Nat
deriving DecidableEq, Repr

/-- `Model.findById` — a point lookup that ignores `isActive`. -/
def findCategory (db : DB) (i : Nat) : Option Category :=
  db.categories.find? (fun c => c.id == i)

def findImage (db : DB) (i : Nat) : Option Image :=
  db.images.find? (fun x => x.id == i)

/-! ### Category service (src/src/services/CategoryService.js) -/

/-- `CategoryService.createCategory`: `new Category(data); save()`.  The
schema trims `name` and `description`, requires 2–50 characters for the
name, derives the slug in the `pre('save')` hook, and the store enforces
the unique indexes on both `name` and `slug` (duplicate-key error code
11000 on violation). -/
def createCategory (db : DB) (rawName rawDescription : String) (now : Nat) :
    DB × Except Err Category :=
  let name := trimStr rawName
  let description := trimStr rawDescription
  if name.length < 2 ∨ 50 < name.length then (db, Except.error Err.invalidData)
  else
    let slug := slugify name
    if db.categories.any (fun c => c.name == name || c.slug == slug) then
      (db, Except.error Err.duplicateKey)
    else
      let cat : Category :=
        { id := db.nextId, name := name, description := description, slug := slug,
          isActive := true, imageCount := 0, createdAt := now }
      ({ db with categories := db.categories ++ [cat], nextId := db.nextId + 1 },
       Except.ok cat)

structure CategoryPatch where
  name : Option String
  description : Option String
deriving DecidableEq, Repr

/-- `CategoryService.updateCategory`: `Category.findByIdAndUpdate(id, data,
{new: true, runValidators: true})`.  Being a query operation it runs no
document `save` middleware, so the slug is NOT recomputed; setters (trim)
and validators run on the patched fields, and the unique name index is
still enforced by the store. -/
def updateCategory (db : DB) (categoryId : Nat) (patch : CategoryPatch) :
    DB × Except Err Category :=
  match findCategory db categoryId with
  | none => (db, Except.error Err.notFound)
  | some cat =>
    let newName := (patch.name.map trimStr).getD cat.name
    let newDescription := (patch.description.map trimStr).getD cat.description
    if newName.length < 2 ∨ 50 < newName.length then (db, Except.error Err.invalidData)
    else if db.categories.any (fun c => c.id != categoryId && c.name == newName) then
      (db, Except.error Err.duplicateKey)
    else
      let cat' := { cat with name := newName, description := newDescription }
      ({ db with categories :=
           db.categories.map (fun c => if c.id == categoryId then cat' else c) },
       Except.ok cat')

/-- `CategoryService.deleteCategory`: `findById`, then
`Image.deleteMany({category})`, then `Category.findByIdAndDelete`.  The
middle component of the result lists the remote-asset delete attempts the
operation issues: this code path performs none (it only touches the
database), and `deleteMany` bypasses the per-document `remove` middleware. -/
def deleteCategory (db : DB) (categoryId : Nat) :
    DB × List String × Except Err (String × Nat) :=
  match findCategory db categoryId with
  | none => (db, [], Except.error Err.notFound)
  | some cat =>
    let owned := db.images.filter (fun i => i.category == categoryId)
    ({ db with
        images := db.images.filter (fun i => i.category != categoryId),
        categories := db.categories.filter (fun c => c.id != categoryId) },
     [],
     Except.ok (cat.name, owned.length))

/-- `CategoryService.getCategoryByName`: `findOne({name: {$regex: new
RegExp(name, 'i')}, isActive: true})`. -/
def getCategoryByName (db : DB) (categoryName : String) : Except Err Category :=
  match db.categories.find? (fun c => regexTest true categoryName c.name && c.isActive) with
  | none => Except.error Err.notFound
  | some c => Except.ok c

/-- `CategoryService.searchCategories`: active categories whose name or
description matches the term as a case-insensitive `$regex`, sorted by
name ascending. -/
def searchCategories (db : DB) (searchTerm : String) : List Category :=
  insertionSort (fun a b => decide (a.name ≤ b.name))
    (db.categories.filter (fun c =>
      c.isActive && (regexTest true searchTerm c.name ||
                     regexTest true searchTerm c.description)))

/-! ### Image service (src/src/services/ImageService.js) -/

/-- The metadata the controller assembles from the multipart body. -/
structure ImageMeta where
  title : String
  description : String
  tags : List String
  isFeatured : Bool
  originalFileName : String
deriving DecidableEq, Repr

/-- What the asset host returns from a successful upload. -/
structure CloudinaryResult where
  publicId : String
  secureUrl : String
  bytes : Nat
  format : String
  width : Nat
  height : Nat
deriving DecidableEq, Repr

/-- `cloudinaryConfig.getImageUrl`: a derived URL built locally from the
asset identifier (no network round trip); the exact URL text is opaque to
the backend logic. -/
def thumbnailUrlOf (publicId : String) : String := "thumb/" ++ publicId

/-- `$inc: {imageCount: k}` on one category (`Category.findByIdAndUpdate`). -/
def bumpImageCount (db : DB) (categoryId : Nat) (k : Nat) : DB :=
  { db with categories := db.categories.map (fun c =>
      if c.id == categoryId then { c with imageCount := c.imageCount + k } else c) }

/-- `ImageService.uploadImage`: verify the category exists, upload the
binary to the asset host (`uploadResult = none` models an upload failure,
which is thrown before any local write), build the thumbnail URL, then
`image.save()`.  The `imageSchema.pre('save')` hook `$inc`s the owning
category's `imageCount` before the insert hits the unique `cloudinaryId`
index, so on a duplicate-key failure the counter is already bumped. -/
def uploadImage (db : DB) (meta : ImageMeta) (categoryId : Nat)
    (uploadResult : Option CloudinaryResult) (now : Nat) :
    DB × Except Err Image :=
  match findCategory db categoryId with
  | none => (db, Except.error Err.notFound)
  | some _cat =>
    match uploadResult with
    | none => (db, Except.error Err.upstream)
    | some r =>
      let db1 := bumpImageCount db categoryId 1
      if db.images.any (fun img => img.cloudinaryId == r.publicId) then
        (db1, Except.error Err.duplicateKey)
      else
        let img : Image :=
          { id := db.nextId, title := meta.title, description := meta.description,
            category := categoryId, cloudinaryId := r.publicId,
            imageUrl := r.secureUrl, thumbnailUrl := thumbnailUrlOf r.publicId,
            tags := meta.tags, isActive := true, isFeatured := meta.isFeatured,
            viewCount := 0, createdAt := now }
        ({ db1 with images := db1.images ++ [img], nextId := db1.nextId + 1 },
         Except.ok img)

/-- `ImageService.getImageById`: `findById` (no `isActive` filter), Not
Found if absent, then `image.incrementViewCount()` which does
`viewCount += 1; save()` and returns the updated document.  The save runs
the `pre('save')` hook, but `isNew` is false and `category` is unmodified,
so no `imageCount` change occurs. -/
def getImageById (db : DB) (imageId : Nat) : DB × Except Err Image :=
  match findImage db imageId with
  | none => (db, Except.error Err.notFound)
  | some img =>
    let img' := { img with viewCount := img.viewCount + 1 }
    ({ db with images := db.images.map (fun x => if x.id == imageId then img' else x) },
     Except.ok img')

/-- The update payload that can reach `Image.findByIdAndUpdate`.  The
validation middleware validates with `stripUnknown: true` but then merges
the RAW body back in (`req.body = { ...req.body, ...value }`,
src/src/middleware/validation.js line 194), so the stripping has no
effect and any schema path can come through — including `viewCount`
(whose only validator is `min: 0`, enforced here by `Nat`) and
`isActive`.  `_id` and the timestamp-managed `createdAt` are not
updatable. -/
structure ImagePatch where
  title : Option String
  description : Option String
  category : Option Nat
  cloudinaryId : Option String
  imageUrl : Option String
  thumbnailUrl : Option String
  tags : Option (List String)
  isActive : Option Bool
  isFeatured : Option Bool
  viewCount : Option Nat
deriving DecidableEq, Repr

/-- `ImageService.updateImage`: passes the merged body verbatim to
`Image.findByIdAndUpdate` — a query operation, so no document middleware
runs (no `imageCount` maintenance even when the category reference
changes, and the new category is not verified to exist).  The store still
enforces the unique `cloudinaryId` index: patching it to another image's
identifier is a duplicate-key error. -/
def updateImage (db : DB) (imageId : Nat) (patch : ImagePatch) :
    DB × Except Err Image :=
  match findImage db imageId with
  | none => (db, Except.error Err.notFound)
  | some img =>
    if patch.cloudinaryId.any (fun cid =>
        db.images.any (fun x => x.id != imageId && x.cloudinaryId == cid)) then
      (db, Except.error Err.duplicateKey)
    else
      let img' := { img with
        title := patch.title.getD img.title,
        description := patch.description.getD img.description,
        category := patch.category.getD img.category,
        cloudinaryId := patch.cloudinaryId.getD img.cloudinaryId,
        imageUrl := patch.imageUrl.getD img.imageUrl,
        thumbnailUrl := patch.thumbnailUrl.getD img.thumbnailUrl,
        tags := patch.tags.getD img.tags,
        isActive := patch.isActive.getD img.isActive,
        isFeatured := patch.isFeatured.getD img.isFeatured,
        viewCount := patch.viewCount.getD img.viewCount }
      ({ db with images := db.images.map (fun x => if x.id == imageId then img' else x) },
       Except.ok img')

/-- `ImageService.deleteImage`: `findById`, then
`cloudinaryConfig.deleteImage(image.cloudinaryId)` — a failure there throws
and aborts the operation — then `Image.findByIdAndDelete(imageId)`, which
bypasses the `imageSchema.pre('remove')` hook (that hook is the only code
that would decrement the category's `imageCount`).  The middle component
lists the remote delete attempts issued. -/
def deleteImage (db : DB) (imageId : Nat) (remoteDeleteOk : Bool) :
    DB × List String × Except Err (String × String) :=
  match findImage db imageId with
  | none => (db, [], Except.error Err.notFound)
  | some img =>
    if remoteDeleteOk then
      ({ db with images := db.images.filter (fun x => x.id != imageId) },
       [img.cloudinaryId],
       Except.ok (img.title, img.cloudinaryId))
    else
      (db, [img.cloudinaryId], Except.error Err.upstream)

/-- Comparator for `.sort({createdAt: -1})`: newest first. -/
def newestFirst (a b : Image) : Bool := decide (b.createdAt ≤ a.createdAt)

/-- `imageSchema.statics.findFeatured`: active and featured, newest first,
capped at `limit` (the service passes 20 when the caller gives none). -/
def findFeatured (db : DB) (limit : Nat) : List Image :=
  (insertionSort newestFirst
    (db.images.filter (fun i => i.isActive && i.isFeatured))).take limit

/-- An image together with the result of `.populate({path: 'category',
match: ...})`: the populated field is `null` when the owning category fails
the match, but the image itself stays in the result. -/
structure PopulatedImage where
  image : Image
  category : Option Category
deriving DecidableEq, Repr

/-- `imageSchema.statics.findByCategoryName`: the root query filters on
`isActive` only and sorts newest first; the category-name condition lives
in the populate `match`, which nulls the `category` field of non-matching
images but removes nothing from the result.  `if (limit)` is JavaScript
truthiness, so a limit of 0 is ignored. -/
def findByCategoryName (db : DB) (categoryName : String) (limit : Option Nat) :
    List PopulatedImage :=
  let sorted := insertionSort newestFirst (db.images.filter (fun i => i.isActive))
  let limited := match limit with
    | some l => if l == 0 then sorted else sorted.take l
    | none => sorted
  limited.map (fun img =>
    { image := img,
      category := match findCategory db img.category with
        | some cat =>
          if regexTest true categoryName cat.name && cat.isActive then some cat else none
        | none => none })

/-- `ImageService.getImagesByCategory` delegates to `findByCategoryName`. -/
def getImagesByCategory (db : DB) (categoryName : String) (limit : Option Nat) :
    List PopulatedImage :=
  findByCategoryName db categoryName limit

/-- One entry of `imageSchema.statics.getHomepageData`: a category summary
with its up-to-20 newest active images (the code projects a field subset
of each image; the projection is not modelled, the selection logic is). -/
structure HomeEntry where
  category : Category
  images : List Image
deriving DecidableEq, Repr

def getHomepageData (db : DB) : List HomeEntry :=
  (insertionSort (fun a b => decide (a.name ≤ b.name))
    (db.categories.filter (fun c => c.isActive))).map (fun cat =>
      { category := cat,
        images := (insertionSort newestFirst
          (db.images.filter (fun i => i.category == cat.id && i.isActive))).take 20 })

/-! ### Image listing (`ImageService.getAllImages` and its HTTP pipeline) -/

structure ListOptions where
  page : Nat
  limit : Nat
  sortKey : String
  sortOrder : String
  category : Option Nat
  featured : Option Bool
  search : Option String
deriving DecidableEq, Repr

structure Pagination where
  page : Nat
  limit : Nat
  total : Nat
  totalPages : Nat
  hasNext : Bool
  hasPrev : Bool
deriving DecidableEq, Repr

/-- Sort comparator for the listing.  `title` compares titles, `viewCount`
view counts; `createdAt` (the default for unknown keys) compares creation
times.  `updatedAt` timestamps are not tracked by this embedding (no claim
touches them) and fall back to `createdAt`. -/
def imageKeyLe (sortKey : String) (a b : Image) : Bool :=
  if sortKey == "title" then decide (a.title ≤ b.title)
  else if sortKey == "viewCount" then decide (a.viewCount ≤ b.viewCount)
  else decide (a.createdAt ≤ b.createdAt)

/-- `ImageService.getAllImages`: active images with the optional category /
featured / search filters, sorted, then `skip((page-1)*limit).limit(limit)`
with the pagination envelope (`totalPages = Math.ceil(total/limit)`;
`limit` is always positive on the paths that reach this service). -/
def getAllImages (db : DB) (opts : ListOptions) : List Image × Pagination :=
  let hits := db.images.filter (fun i =>
    i.isActive
    && (match opts.category with | some c => i.category == c | none => true)
    && (match opts.featured with | some f => i.isFeatured == f | none => true)
    && (match opts.search with
        | some s => regexTest true s i.title || regexTest true s i.description
            || i.tags.any (fun t => regexTest true s t)
        | none => true))
  let le := fun a b =>
    if opts.sortOrder == "desc" then imageKeyLe opts.sortKey b a
    else imageKeyLe opts.sortKey a b
  let sorted := insertionSort le hits
  let total := hits.length
  let skip := (opts.page - 1) * opts.limit
  let pageImages := (sorted.drop skip).take opts.limit
  let totalPages := (total + opts.limit - 1) / opts.limit
  (pageImages,
   { page := opts.page, limit := opts.limit, total := total, totalPages := totalPages,
     hasNext := decide (opts.page < totalPages), hasPrev := decide (1 < opts.page) })

/-- `parseInt(q) || d`: an absent query parameter parses to `NaN` and a
parsed `0` is falsy, so both fall back to the default. -/
def parseIntOr (q : Option Nat) (d : Nat) : Nat :=
  match q with
  | none => d
  | some n => if n == 0 then d else n

/-- The `GET /images` pipeline: the route
(`router.get('/', ImageController.getAllImages)`) applies NO validation
middleware — in particular `schemas.pagination` and its 100 cap are never
consulted here — and the controller builds the options with
`parseInt(req.query.page) || 1`, `parseInt(req.query.limit) || 20` and the
raw filter parameters. -/
def getAllImagesHTTP (db : DB) (qPage qLimit : Option Nat)
    (qSortKey qSortOrder : Option String) (qCategory : Option Nat)
    (qFeatured : Option Bool) (qSearch : Option String) : List Image × Pagination :=
  getAllImages db
    { page := parseIntOr qPage 1, limit := parseIntOr qLimit 20,
      sortKey := qSortKey.getD "createdAt", sortOrder := qSortOrder.getD "desc",
      category := qCategory, featured := qFeatured, search := qSearch }

/-- `schemas.pagination` of src/src/middleware/validation.js, as data:
the limit field defaults to 20 and is rejected above 100.  (Modelled for
reference; no image-listing route attaches this schema.) -/
def paginationSchemaLimitOk (limit : Nat) : Bool :=
  decide (1 ≤ limit) && decide (limit ≤ 100)

/-! ### The operations as a single step type, for state invariants -/

inductive Op where
  | createCat (name description : String) (now : Nat)
  | updateCat (categoryId : Nat) (patch : CategoryPatch)
  | deleteCat (categoryId : Nat)
  | upload (meta : ImageMeta) (categoryId : Nat)
      (uploadResult : Option CloudinaryResult) (now : Nat)
  | getById (imageId : Nat)
  | updateImg (imageId : Nat) (patch : ImagePatch)
  | deleteImg (imageId : Nat) (remoteOk : Bool)

/-- The store state an operation leaves behind (erroring operations leave
the state they reached). -/
def applyOp (db : DB) : Op → DB
  | Op.createCat n d t => (createCategory db n d t).1
  | Op.updateCat c p => (updateCategory db c p).1
  | Op.deleteCat c => (deleteCategory db c).1
  | Op.upload m c u t => (uploadImage db m c u t).1
  | Op.getById i => (getImageById db i).1
  | Op.updateImg i p => (updateImage db i p).1
  | Op.deleteImg i r => (deleteImage db i r).1

/-- Whether an operation's payload is free of the `viewCount` field:
every operation except an image update that carries one (the re-merged
request body can carry it; see `ImagePatch`). -/
def opPreservesViews : Op → Bool
  | Op.updateImg _ p => p.viewCount.isNone
  | _ => true

/-- `n` sequential `getImageById` calls. -/
def iterGetById (db : DB) (imageId : Nat) : Nat → DB
  | 0 => db
  | n + 1 => iterGetById (getImageById db imageId).1 imageId n

/-! ### Concrete stores used by the witnesses and counterexamples -/

def dbEmpty : DB := { categories := [], images := [], nextId := 0 }

def demoCat : Category :=
  { id := 0, name := "halls", description := "", slug := "halls",
    isActive := true, imageCount := 1, createdAt := 0 }

def demoImg : Image :=
  { id := 1, title := "Sunset Shot", description := "", category := 0,
    cloudinaryId := "cid1", imageUrl := "u1", thumbnailUrl := "t1", tags := [],
    isActive := true, isFeatured := false, viewCount := 0, createdAt := 1 }

/-- One category correctly caching `imageCount = 1` for its one active image. -/
def demoDb : DB := { categories := [demoCat], images := [demoImg], nextId := 2 }

def gardenCat : Category :=
  { id := 2, name := "gardens", description := "", slug := "gardens",
    isActive := true, imageCount := 1, createdAt := 0 }

def gardenImg : Image :=
  { id := 3, title := "Rose Garden", description := "", category := 2,
    cloudinaryId := "cid2", imageUrl := "u2", thumbnailUrl := "t2", tags := [],
    isActive := true, isFeatured := false, viewCount := 0, createdAt := 2 }

/-- Two categories, one active image each. -/
def twoCatDb : DB :=
  { categories := [demoCat, gardenCat], images := [demoImg, gardenImg], nextId := 4 }

def hiddenImg : Image :=
  { id := 5, title := "Hidden", description := "", category := 0,
    cloudinaryId := "cid5", imageUrl := "u5", thumbnailUrl := "t5", tags := [],
    isActive := false, isFeatured := true, viewCount := 4, createdAt := 3 }

/-- A store holding a soft-deleted (`isActive = false`) image. -/
def hiddenDb : DB :=
  { categories := [demoCat], images := [demoImg, hiddenImg], nextId := 6 }

def abcCat : Category :=
  { id := 0, name := "abc", description := "misc", slug := "abc",
    isActive := true, imageCount := 1, createdAt := 0 }

def abcImg : Image :=
  { id := 1, title := "abc", description := "", category := 0,
    cloudinaryId := "cidA", imageUrl := "uA", thumbnailUrl := "tA", tags := [],
    isActive := true, isFeatured := false, viewCount := 0, createdAt := 0 }

/-- Records whose text fields are exactly "abc"/"misc": targets for the
regex-versus-literal-search distinction. -/
def abcDb : DB := { categories := [abcCat], images := [abcImg], nextId := 2 }

/-- 101 active images, to exercise the absent pagination cap. -/
def wideDb : DB :=
  { categories := [],
    images := (List.range 101).map (fun k =>
      { id := k, title := "p", description := "", category := 0,
        cloudinaryId := "c", imageUrl := "u", thumbnailUrl := "t", tags := [],
        isActive := true, isFeatured := false, viewCount := 0, createdAt := 0 }),
    nextId := 101 }

def demoMeta : ImageMeta :=
  { title := "Sunset Shot", description := "", tags := [], isFeatured := false,
    originalFileName := "s.jpg" }

def demoUpload : CloudinaryResult :=
  { publicId := "pid9", secureUrl := "su", bytes := 10, format := "jpg",
    width := 800, height := 600 }

/-! ### List helper lemmas -/

theorem mem_insertSorted {α : Type} (le : α → α → Bool) (x a : α) (l : List α) :
    a ∈ insertSorted le x l ↔ a = x ∨ a ∈ l := by
  induction l with
  | nil => simp [insertSorted]
  | cons y ys ih =>
    simp only [insertSorted]
    split
    · simp [List.mem_cons]
    · simp only [List.mem_cons, ih]
      tauto

theorem mem_insertionSort {α : Type} (le : α → α → Bool) (a : α) (l : List α) :
    a ∈ insertionSort le l ↔ a ∈ l := by
  induction l with
  | nil => simp [insertionSort]
  | cons x xs ih => simp [insertionSort, mem_insertSorted, ih]

/-- In a list whose ids are distinct, two members with the same id are the
same record. -/
theorem eq_of_id_nodup : ∀ {l : List Image}, (l.map Image.id).Nodup →
    ∀ {a b : Image}, a ∈ l → b ∈ l → a.id = b.id → a = b := by
  intro l
  induction l with
  | nil => intro _ a b ha; cases ha
  | cons x xs ih =>
    intro hnd a b ha hb hid
    rw [List.map_cons, List.nodup_cons] at hnd
    rcases List.mem_cons.mp ha with rfl | ha'
    · rcases List.mem_cons.mp hb with rfl | hb'
      · rfl
      · exact absurd (by rw [hid]; exact List.mem_map.mpr ⟨b, hb', rfl⟩) hnd.1
    · rcases List.mem_cons.mp hb with rfl | hb'
      · exact absurd (by rw [← hid]; exact List.mem_map.mpr ⟨a, ha', rfl⟩) hnd.1
      · exact ih hnd.2 ha' hb' hid

/-- `find?` commutes with a map that preserves the predicate. -/
theorem find?_map_pres {p : Image → Bool} {g : Image → Image}
    (hg : ∀ x, p (g x) = p x) :
    ∀ l : List Image, (l.map g).find? p = (l.find? p).map g := by
  intro l
  induction l with
  | nil => rfl
  | cons x xs ih =>
    rw [List.map_cons]
    cases hx : p x with
    | true =>
      rw [List.find?_cons_of_pos _ (by rw [hg]; exact hx),
          List.find?_cons_of_pos _ hx, Option.map_some']
    | false =>
      rw [List.find?_cons_of_neg _ (by simp [hg, hx]),
          List.find?_cons_of_neg _ (by simp [hx]), ih]

theorem filter_after_filter_not {α : Type} (p : α → Bool) (l : List α) :
    (l.filter (fun a => !(p a))).filter p = [] := by
  induction l with
  | nil => rfl
  | cons x xs ih =>
    cases hx : p x with
    | true => simp [List.filter_cons, hx, ih]
    | false => simp [List.filter_cons, hx, ih]

theorem find?_after_filter_not {α : Type} (p : α → Bool) (l : List α) :
    (l.filter (fun a => !(p a))).find? p = none := by
  induction l with
  | nil => rfl
  | cons x xs ih =>
    cases hx : p x with
    | true => simp [List.filter_cons, hx, ih]
    | false =>
      simp only [List.filter_cons, hx, Bool.not_false, if_pos]
      rw [List.find?_cons_of_neg _ (by simp [hx])]
      exact ih

/-! ### Claim C4: no local record unless the remote upload succeeded -/

/-- C4: for every store, metadata, category id and upload outcome: a
missing category rejects the request with Not Found and leaves the store
untouched; a failed remote upload rejects it with the upstream error and
leaves the store untouched; and whenever `uploadImage` returns a created
image, the upload had succeeded and the image collection is exactly the
old collection plus that one record. -/
theorem uploadImage_no_record_on_failure
    (db : DB) (meta : ImageMeta) (categoryId : Nat)
    (uploadResult : Option CloudinaryResult) (now : Nat) :
    (findCategory db categoryId = none →
      uploadImage db meta categoryId uploadResult now = (db, Except.error Err.notFound)) ∧
    (uploadResult = none → findCategory db categoryId ≠ none →
      uploadImage db meta categoryId uploadResult now = (db, Except.error Err.upstream)) ∧
    (∀ db' img, uploadImage db meta categoryId uploadResult now = (db', Except.ok img) →
      ∃ r, uploadResult = some r ∧ db'.images = db.images ++ [img]) := by
  refine ⟨?_, ?_, ?_⟩
  · intro h
    simp [uploadImage, h]
  · intro h hc
    cases hf : findCategory db categoryId with
    | none => exact absurd hf hc
    | some cat => simp [uploadImage, hf, h]
  · intro db' img h
    cases hf : findCategory db categoryId with
    | none => simp [uploadImage, hf] at h
    | some cat =>
      cases uploadResult with
      | none => simp [uploadImage, hf] at h
      | some r =>
        refine ⟨r, rfl, ?_⟩
        cases hd : db.images.any (fun im => im.cloudinaryId == r.publicId) with
        | true => simp [uploadImage, hf, hd] at h
        | false =>
          simp only [uploadImage, hf, hd, Bool.false_eq_true, if_false,
            Prod.mk.injEq] at h
          obtain ⟨hdb, himg⟩ := h
          obtain rfl := Except.ok.inj himg
          rw [← hdb]
          simp [bumpImageCount]

/-- C4 witness: a concrete missing category and a concrete failed upload,
each leaving the store unchanged. -/
theorem uploadImage_no_record_on_failure_witness :
    uploadImage dbEmpty demoMeta 7 (some demoUpload) 0
      = (dbEmpty, Except.error Err.notFound) ∧
    uploadImage demoDb demoMeta 0 none 5 = (demoDb, Except.error Err.upstream) := by
  refine ⟨?_, ?_⟩
  · exact (uploadImage_no_record_on_failure dbEmpty demoMeta 7 (some demoUpload) 0).1
      (by decide)
  · exact (uploadImage_no_record_on_failure demoDb demoMeta 0 none 5).2.1 rfl (by decide)

/-! ### Claim C1 (counterexample part): zero remote delete attempts -/

/-- C1 counterexample: in a store whose category 0 owns exactly one image,
`deleteCategory` issues zero remote-asset delete attempts, not one per
owned image as claimed. -/
theorem deleteCategory_zero_remote_attempts :
    (demoDb.images.filter (fun i => i.category == 0)).length = 1 ∧
    (deleteCategory demoDb 0).2.1.length = 0 ∧
    (deleteCategory demoDb 0).2.1.length ≠ 1 := by
  decide

/-- C1 (amended): for every existing category, `deleteCategory` issues
zero remote-asset delete attempts, removes all N image records referencing
the category and the category record itself, and returns the category name
together with the count N of deleted images. -/
theorem deleteCategory_removes_images_and_category
    (db : DB) (categoryId : Nat) (cat : Category)
    (h : findCategory db categoryId = some cat) :
    (deleteCategory db categoryId).2.1 = [] ∧
    (deleteCategory db categoryId).2.2 =
      Except.ok (cat.name, (db.images.filter (fun i => i.category == categoryId)).length) ∧
    ((deleteCategory db categoryId).1.images.filter
        (fun i => i.category == categoryId)) = [] ∧
    findCategory (deleteCategory db categoryId).1 categoryId = none := by
  refine ⟨?_, ?_, ?_, ?_⟩
  · simp [deleteCategory, h]
  · simp [deleteCategory, h]
  · simp only [deleteCategory, h]
    exact filter_after_filter_not (fun i => i.category == categoryId) db.images
  · simp only [deleteCategory, h]
    exact find?_after_filter_not (fun c => c.id == categoryId) db.categories

/-- C1 witness: deleting the demo category (one owned image) returns its
name with count 1 and leaves no trace of it in the store. -/
theorem deleteCategory_removes_images_and_category_witness :
    findCategory demoDb 0 = some demoCat ∧
    (deleteCategory demoDb 0).2.2 = Except.ok (demoCat.name, 1) ∧
    findCategory (deleteCategory demoDb 0).1 0 = none := by
  refine ⟨by decide, ?_, ?_⟩
  · rw [(deleteCategory_removes_images_and_category demoDb 0 demoCat (by decide)).2.1]
    decide
  · exact (deleteCategory_removes_images_and_category demoDb 0 demoCat (by decide)).2.2.2

/-! ### Claim C2: imageCount is not decremented on image delete -/

/-- C2: the claim fails on the delete path.  Starting from a store where
category 0 caches `imageCount = 1` for its single active image, a
successful `deleteImage` removes the image record but leaves the
category's `imageCount` at 1 (the `pre('remove')` decrement hook never
runs under `findByIdAndDelete`), so the cache no longer equals the count
of active images referencing the category. -/
theorem deleteImage_leaves_imageCount_stale :
    (deleteImage demoDb 1 true).2.2 = Except.ok ("Sunset Shot", "cid1") ∧
    ((deleteImage demoDb 1 true).1.images.filter
        (fun i => i.category == 0 && i.isActive)).length = 0 ∧
    (findCategory (deleteImage demoDb 1 true).1 0).map Category.imageCount = some 1 := by
  decide

/-! ### Claim C3 (counterexample part): duplicate create is 400, not 409 -/

/-- C3 counterexample: creating "Hall" and then "hall" rejects the second
create with a duplicate-key error (the derived slugs collide on the unique
slug index) and leaves a single category record, but the error handler
surfaces duplicate-key errors as HTTP 400, not 409. -/
theorem duplicate_name_status_400_not_409 :
    (createCategory (createCategory dbEmpty "Hall" "" 0).1 "hall" "" 1).2
      = Except.error Err.duplicateKey ∧
    (createCategory (createCategory dbEmpty "Hall" "" 0).1 "hall" "" 1).1.categories.length
      = 1 ∧
    errorHttpStatus Err.duplicateKey = 400 ∧
    errorHttpStatus Err.duplicateKey ≠ 409 := by
  decide

/-- The slug transform only depends on the lowercased text. -/
theorem slugify_eq_of_lower_eq {s t : String} (h : lowerStr s = lowerStr t) :
    slugify s = slugify t := by
  unfold slugify slugChars
  rw [h]

/-- Lowercasing preserves the character count. -/
theorem length_eq_of_lower_eq {s t : String} (h : lowerStr s = lowerStr t) :
    s.length = t.length := by
  have hd : s.data.map Char.toLower = t.data.map Char.toLower := congrArg String.data h
  have hl := congrArg List.length hd
  rw [List.length_map, List.length_map] at hl
  exact hl

/-- C3 (amended): for every pair of category-create requests whose names
are equal after trimming whitespace and ignoring case, the second create is
rejected with a duplicate-key error (the derived slugs collide on the
unique slug index even when the stored names differ in case), no second
category record is created, and the error handler surfaces it as HTTP 400
(not 409). -/
theorem caseInsensitive_duplicate_rejected_400
    (db db1 : DB) (cat1 : Category) (n1 d1 n2 d2 : String) (t1 t2 : Nat)
    (h1 : createCategory db n1 d1 t1 = (db1, Except.ok cat1))
    (heq : lowerStr (trimStr n2) = lowerStr (trimStr n1)) :
    createCategory db1 n2 d2 t2 = (db1, Except.error Err.duplicateKey) ∧
    errorHttpStatus Err.duplicateKey = 400 := by
  have hslug : slugify (trimStr n2) = slugify (trimStr n1) := slugify_eq_of_lower_eq heq
  have hlen : (trimStr n2).length = (trimStr n1).length := length_eq_of_lower_eq heq
  simp only [createCategory] at h1
  split at h1
  · exact absurd h1 (by simp)
  next hlen1 =>
    split at h1
    · exact absurd h1 (by simp)
    next hdup1 =>
      rw [Prod.mk.injEq] at h1
      obtain ⟨hdb1, hcat1⟩ := h1
      refine ⟨?_, rfl⟩
      simp only [createCategory]
      rw [if_neg (by rw [hlen]; exact hlen1)]
      rw [if_pos ?hdup2]
      case hdup2 =>
        rw [← hdb1]
        simp only [List.any_append, List.any_cons, List.any_nil, hslug]
        simp

/-- C3 witness: " HALL " after "Hall" (equal after trimming and case
folding) hits the amended theorem's hypotheses at a concrete input. -/
theorem caseInsensitive_duplicate_rejected_400_witness :
    createCategory (createCategory dbEmpty "Hall" "" 0).1 " HALL " "" 1 =
      ((createCategory dbEmpty "Hall" "" 0).1, Except.error Err.duplicateKey) := by
  exact (caseInsensitive_duplicate_rejected_400 dbEmpty (createCategory dbEmpty "Hall" "" 0).1
    { id := 0, name := "Hall", description := "", slug := "hall",
      isActive := true, imageCount := 0, createdAt := 0 }
    "Hall" "" " HALL " "" 0 1 (by decide) (by decide)).1

/-! ### Claim C5: slug not recomputed on rename -/

/-- C5: the claim fails on the update path.  Creating "Hall A" stores slug
"hall-a"; renaming the category to "Grand Palace" through
`updateCategory` (a `findByIdAndUpdate`, which skips the `pre('save')`
slug hook) keeps the stale slug "hall-a" instead of the deterministic
transform "grand-palace" of the new name. -/
theorem updateCategory_does_not_recompute_slug :
    (createCategory dbEmpty "Hall A" "" 0).2 = Except.ok
      { id := 0, name := "Hall A", description := "", slug := "hall-a",
        isActive := true, imageCount := 0, createdAt := 0 } ∧
    (updateCategory (createCategory dbEmpty "Hall A" "" 0).1 0
        { name := some "Grand Palace", description := none }).2 = Except.ok
      { id := 0, name := "Grand Palace", description := "", slug := "hall-a",
        isActive := true, imageCount := 0, createdAt := 0 } ∧
    slugify "Grand Palace" = "grand-palace" ∧
    ("hall-a" : String) ≠ "grand-palace" := by
  decide

/-! ### Claim C6: by-category-name returns images of other categories -/

/-- C6: the claim fails.  With two categories ("halls" and "gardens"), each
owning one active image, `getImagesByCategory "halls"` returns BOTH
images: the populate `match` nulls the `category` field of the
non-matching image (the rose-garden one, whose owning category does not
match "halls") but does not remove it from the result. -/
theorem findByCategoryName_returns_nonmatching_images :
    getImagesByCategory twoCatDb "halls" none =
      [ { image := gardenImg, category := none },
        { image := demoImg, category := some demoCat } ] ∧
    gardenImg.category = gardenCat.id ∧
    regexTest true "halls" gardenCat.name = false := by
  decide

/-! ### Claim C7 (counterexample part): the 100 cap is never applied -/

/-- C7 counterexample: a list request with `limit=101` against 101 active
images returns 101 records — the `GET /images` route never attaches the
pagination schema, so nothing caps the limit at 100. -/
theorem imageList_limit_not_capped :
    (getAllImagesHTTP wideDb none (some 101) none none none none none).1.length = 101 ∧
    100 < (getAllImagesHTTP wideDb none (some 101) none none none none none).1.length ∧
    paginationSchemaLimitOk 101 = false := by
  decide

/-- C7 (amended): when page and limit are absent the image list defaults
them to 1 and 20; but the validation layer's 100 cap is never applied on
this route, so any nonzero requested limit is used as-is (and responses
may exceed 100 records). -/
theorem imageList_defaults (db : DB) (qc : Option Nat) (qf : Option Bool)
    (qs : Option String) (n : Nat) (hn : n ≠ 0) :
    (getAllImagesHTTP db none none none none qc qf qs).2.page = 1 ∧
    (getAllImagesHTTP db none none none none qc qf qs).2.limit = 20 ∧
    (getAllImagesHTTP db none (some n) none none qc qf qs).2.limit = n := by
  refine ⟨rfl, rfl, ?_⟩
  simp [getAllImagesHTTP, getAllImages, parseIntOr, hn]

/-- C7 witness: a request with limit 37 is served with effective limit 37
(no cap), while absent parameters default to page 1, limit 20. -/
theorem imageList_defaults_witness :
    (getAllImagesHTTP demoDb none none none none none none none).2.page = 1 ∧
    (getAllImagesHTTP demoDb none none none none none none none).2.limit = 20 ∧
    (getAllImagesHTTP demoDb none (some 37) none none none none none).2.limit = 37 :=
  imageList_defaults demoDb none none none 37 (by decide)

/-! ### Claim C10: search terms are regex patterns, not literals -/

/-- C10: category search, image search and get-category-by-name all treat
the supplied term as a regular-expression pattern.  For the term "a.c"
(which contains the `.` metacharacter) each of them returns the record
named/titled "abc", although none of that record's searched fields
literally contains "a.c". -/
theorem search_interprets_term_as_regex :
    searchCategories abcDb "a.c" = [abcCat] ∧
    getCategoryByName abcDb "a.c" = Except.ok abcCat ∧
    (getAllImagesHTTP abcDb none none none none none none (some "a.c")).1 = [abcImg] ∧
    containsLiteralCI abcCat.name "a.c" = false ∧
    containsLiteralCI abcCat.description "a.c" = false ∧
    containsLiteralCI abcImg.title "a.c" = false ∧
    containsLiteralCI abcImg.description "a.c" = false ∧
    abcImg.tags = [] := by
  decide

/-! ### View-count lemmas (toward claim C8) -/

/-- A single `getImageById` on an existing image returns the record with
`viewCount + 1` and persists exactly that record. -/
theorem getById_step (db : DB) (imageId : Nat) (img : Image)
    (h : findImage db imageId = some img) :
    (getImageById db imageId).2 = Except.ok { img with viewCount := img.viewCount + 1 } ∧
    findImage (getImageById db imageId).1 imageId =
      some { img with viewCount := img.viewCount + 1 } := by
  have hp : (img.id == imageId) = true :=
    List.find?_some (p := fun x : Image => x.id == imageId)
      (show db.images.find? (fun x => x.id == imageId) = some img from h)
  constructor
  · simp [getImageById, h]
  · have h' : db.images.find? (fun x => x.id == imageId) = some img := h
    simp only [getImageById, findImage, h']
    rw [find?_map_pres (p := fun x : Image => x.id == imageId)
      (g := fun x => if x.id == imageId then { img with viewCount := img.viewCount + 1 } else x)
      (by intro x
          by_cases hx : (x.id == imageId) = true
          · simp [hx, hp]
          · simp [hx])]
    rw [h']
    have hpe : img.id = imageId := by simpa using hp
    simp [hpe]

/-- `n` sequential `getImageById` calls add `n` to the stored view count. -/
theorem iter_viewCount (imageId : Nat) (n : Nat) :
    ∀ (db : DB) (img : Image), findImage db imageId = some img →
      findImage (iterGetById db imageId n) imageId =
        some { img with viewCount := img.viewCount + n } := by
  induction n with
  | zero => intro db img h; exact h
  | succ m ih =>
    intro db img h
    have hstep := (getById_step db imageId img h).2
    have hrec := ih (getImageById db imageId).1 { img with viewCount := img.viewCount + 1 } hstep
    rw [show iterGetById db imageId (m + 1)
        = iterGetById (getImageById db imageId).1 imageId m from rfl, hrec]
    simp only [Option.some.injEq, Image.mk.injEq, true_and, and_true]
    omega

theorem createCategory_images (db : DB) (n d : String) (t : Nat) :
    (createCategory db n d t).1.images = db.images := by
  simp only [createCategory]
  split
  · rfl
  · split <;> rfl

theorem updateCategory_images (db : DB) (c : Nat) (p : CategoryPatch) :
    (updateCategory db c p).1.images = db.images := by
  cases hf : findCategory db c with
  | none => simp [updateCategory, hf]
  | some cat =>
    simp only [updateCategory, hf]
    split
    · rfl
    · split <;> rfl

theorem deleteCategory_images_subset (db : DB) (c : Nat) :
    ∀ a ∈ (deleteCategory db c).1.images, a ∈ db.images := by
  intro a ha
  cases hf : findCategory db c with
  | none => simpa [deleteCategory, hf] using ha
  | some cat =>
    simp only [deleteCategory, hf] at ha
    exact List.mem_of_mem_filter ha

theorem deleteImage_images_subset (db : DB) (i : Nat) (r : Bool) :
    ∀ a ∈ (deleteImage db i r).1.images, a ∈ db.images := by
  intro a ha
  cases hf : findImage db i with
  | none => simpa [deleteImage, hf] using ha
  | some img =>
    cases r with
    | true =>
      simp only [deleteImage, hf, if_pos] at ha
      exact List.mem_of_mem_filter ha
    | false => simpa [deleteImage, hf] using ha

theorem uploadImage_images_incl (db : DB) (m : ImageMeta) (c : Nat)
    (u : Option CloudinaryResult) (t : Nat) :
    ∀ a ∈ db.images, a ∈ (uploadImage db m c u t).1.images := by
  intro a ha
  cases hf : findCategory db c with
  | none => simpa [uploadImage, hf] using ha
  | some cat =>
    cases u with
    | none => simpa [uploadImage, hf] using ha
    | some r =>
      cases hd : db.images.any (fun im => im.cloudinaryId == r.publicId) with
      | true => simpa [uploadImage, hf, hd, bumpImageCount] using ha
      | false =>
        simp only [uploadImage, hf, hd, Bool.false_eq_true, if_false, bumpImageCount]
        exact List.mem_append_left _ ha

/-- Monotonicity transport across a point replacement of the record with a
given id (the shape of `getImageById` and `updateImage` persistence): if
the replacement record keeps the found record's id and does not lower its
view count, no surviving record's view count decreases. -/
theorem mono_of_replace {l : List Image} {found found' : Image} {i : Nat}
    (hfound : l.find? (fun x => x.id == i) = some found)
    (hnd : (l.map Image.id).Nodup) {img img' : Image}
    (h1 : img ∈ l)
    (h2 : img' ∈ l.map (fun x => if x.id == i then found' else x))
    (hid : img'.id = img.id)
    (hid' : found'.id = found.id) (hvc : found.viewCount ≤ found'.viewCount) :
    img.viewCount ≤ img'.viewCount := by
  obtain ⟨y, hy, hgy⟩ := List.mem_map.mp h2
  by_cases hyi : (y.id == i) = true
  · rw [if_pos hyi] at hgy
    subst hgy
    have hfmem : found ∈ l := List.mem_of_find?_eq_some hfound
    have hfid : found.id = img.id := by rw [← hid', hid]
    have hfi : found = img := eq_of_id_nodup hnd hfmem h1 hfid
    rw [← hfi]
    exact hvc
  · rw [if_neg hyi] at hgy
    subst hgy
    have hyimg : y = img := eq_of_id_nodup hnd hy h1 hid
    rw [hyimg]

/-- Across every service operation whose payload does not carry a
`viewCount` field, no surviving image record's view count decreases
(stores with duplicate ids are excluded by the Nodup hypotheses; MongoDB
`_id`s are unique).  An image update CAN carry `viewCount` and lower it —
see `updateImage_lowers_viewCount`. -/
theorem viewCount_monotone (db : DB) (op : Op) (img img' : Image)
    (hpv : opPreservesViews op = true)
    (hnd : (db.images.map Image.id).Nodup)
    (hnd' : ((applyOp db op).images.map Image.id).Nodup)
    (h1 : img ∈ db.images) (h2 : img' ∈ (applyOp db op).images)
    (hid : img'.id = img.id) : img.viewCount ≤ img'.viewCount := by
  cases op with
  | createCat n d t =>
    rw [show applyOp db (Op.createCat n d t) = (createCategory db n d t).1 from rfl,
        createCategory_images] at h2
    exact Nat.le_of_eq (congrArg Image.viewCount (eq_of_id_nodup hnd h2 h1 hid).symm)
  | updateCat c p =>
    rw [show applyOp db (Op.updateCat c p) = (updateCategory db c p).1 from rfl,
        updateCategory_images] at h2
    exact Nat.le_of_eq (congrArg Image.viewCount (eq_of_id_nodup hnd h2 h1 hid).symm)
  | deleteCat c =>
    have h2' := deleteCategory_images_subset db c img' h2
    exact Nat.le_of_eq (congrArg Image.viewCount (eq_of_id_nodup hnd h2' h1 hid).symm)
  | deleteImg i r =>
    have h2' := deleteImage_images_subset db i r img' h2
    exact Nat.le_of_eq (congrArg Image.viewCount (eq_of_id_nodup hnd h2' h1 hid).symm)
  | upload m c u t =>
    have h1' := uploadImage_images_incl db m c u t img h1
    exact Nat.le_of_eq (congrArg Image.viewCount (eq_of_id_nodup hnd' h2 h1' hid).symm)
  | getById i =>
    cases hf : findImage db i with
    | none =>
      have h2' : img' ∈ db.images := by simpa [applyOp, getImageById, hf] using h2
      exact Nat.le_of_eq (congrArg Image.viewCount (eq_of_id_nodup hnd h2' h1 hid).symm)
    | some found =>
      have h2' := h2
      simp only [applyOp, getImageById, hf] at h2'
      exact mono_of_replace (show db.images.find? (fun x => x.id == i) = some found from hf)
        hnd h1 h2' hid rfl (Nat.le_succ _)
  | updateImg i p =>
    have hvb : p.viewCount.isNone = true := hpv
    have hvnone : p.viewCount = none := by
      cases hv : p.viewCount
      · rfl
      · rw [hv] at hvb
        cases hvb
    cases hf : findImage db i with
    | none =>
      have h2' : img' ∈ db.images := by simpa [applyOp, updateImage, hf] using h2
      exact Nat.le_of_eq (congrArg Image.viewCount (eq_of_id_nodup hnd h2' h1 hid).symm)
    | some found =>
      cases hdup : p.cloudinaryId.any (fun cid =>
          db.images.any (fun x => x.id != i && x.cloudinaryId == cid)) with
      | true =>
        have h2' : img' ∈ db.images := by simpa [applyOp, updateImage, hf, hdup] using h2
        exact Nat.le_of_eq (congrArg Image.viewCount (eq_of_id_nodup hnd h2' h1 hid).symm)
      | false =>
        have h2' := h2
        simp only [applyOp, updateImage, hf, hdup, Bool.false_eq_true, if_false] at h2'
        exact mono_of_replace (show db.images.find? (fun x => x.id == i) = some found from hf)
          hnd h1 h2' hid rfl (by simp [hvnone])

/-! ### Claim C8: viewCount semantics of getImageById -/

/-- C8 counterexample: viewCount DOES decrease under an operation.  The
stored image id 5 has viewCount 4; an image update whose payload carries
`viewCount: 0` (which the validation middleware lets through by merging
the raw body back after stripping unknowns) persists viewCount 0 < 4. -/
theorem updateImage_lowers_viewCount :
    (findImage hiddenDb 5).map Image.viewCount = some 4 ∧
    (findImage (updateImage hiddenDb 5
        { title := none, description := none, category := none, cloudinaryId := none,
          imageUrl := none, thumbnailUrl := none, tags := none, isActive := none,
          isFeatured := none, viewCount := some 0 }).1 5).map Image.viewCount = some 0 ∧
    (0 : Nat) < 4 := by
  decide

/-- C8 (amended): every `getImageById` call on an existing image
increments and persists the view count by exactly one, `n` sequential
calls add `n` (e.g. 5 calls yield initial + 5), and a missing id yields
Not Found; a surviving image's view count never decreases under any
operation whose payload does not carry a `viewCount` field — an image
update can carry one (the validation middleware re-merges the raw body
after stripping unknowns) and set the persisted view count to any
non-negative value, lower included. -/
theorem getImageById_viewCount_spec :
    (∀ (db : DB) (imageId : Nat) (img : Image), findImage db imageId = some img →
      (getImageById db imageId).2 = Except.ok { img with viewCount := img.viewCount + 1 } ∧
      findImage (getImageById db imageId).1 imageId =
        some { img with viewCount := img.viewCount + 1 }) ∧
    (∀ (db : DB) (imageId n : Nat) (img : Image), findImage db imageId = some img →
      findImage (iterGetById db imageId n) imageId =
        some { img with viewCount := img.viewCount + n }) ∧
    (∀ (db : DB) (imageId : Nat), findImage db imageId = none →
      (getImageById db imageId).2 = Except.error Err.notFound) ∧
    (∀ (db : DB) (op : Op) (img img' : Image), opPreservesViews op = true →
      (db.images.map Image.id).Nodup → ((applyOp db op).images.map Image.id).Nodup →
      img ∈ db.images → img' ∈ (applyOp db op).images → img'.id = img.id →
      img.viewCount ≤ img'.viewCount) := by
  refine ⟨getById_step, ?_, ?_, ?_⟩
  · intro db imageId n img h
    exact iter_viewCount imageId n db img h
  · intro db imageId h
    simp [getImageById, h]
  · intro db op img img' hpv hnd hnd' h1 h2 hid
    exact viewCount_monotone db op img img' hpv hnd hnd' h1 h2 hid

/-- C8 witness: the demo image starts at view count 0; one call yields 1,
five sequential calls yield 5, a missing id is Not Found, and the
monotonicity clause applies to the concrete `getById` step (whose payload
carries no viewCount). -/
theorem getImageById_viewCount_spec_witness :
    findImage demoDb 1 = some demoImg ∧
    (getImageById demoDb 1).2 =
      Except.ok { demoImg with viewCount := demoImg.viewCount + 1 } ∧
    findImage (iterGetById demoDb 1 5) 1 =
      some { demoImg with viewCount := demoImg.viewCount + 5 } ∧
    (getImageById dbEmpty 9).2 = Except.error Err.notFound ∧
    demoImg.viewCount ≤ ({ demoImg with viewCount := demoImg.viewCount + 1 }).viewCount := by
  refine ⟨by decide, ?_, ?_, ?_, ?_⟩
  · exact (getImageById_viewCount_spec.1 demoDb 1 demoImg (by decide)).1
  · exact getImageById_viewCount_spec.2.1 demoDb 1 5 demoImg (by decide)
  · exact getImageById_viewCount_spec.2.2.1 dbEmpty 9 (by decide)
  · exact getImageById_viewCount_spec.2.2.2 demoDb (Op.getById 1) demoImg
      { demoImg with viewCount := demoImg.viewCount + 1 } (by decide) (by decide)
      (by decide) (by decide) (by decide) (by decide)

/-! ### Claim C9: getImageById does not require the image to be active -/

/-- C9: for every stored image with `isActive = false`, `getImageById`
still returns the image (with its view count incremented), while the same
image is excluded from the paginated list, the featured list, every
homepage group and the by-category-name results — those all filter on
`isActive = true`. -/
theorem getImageById_ignores_isActive
    (db : DB) (imageId : Nat) (img : Image)
    (hfind : findImage db imageId = some img) (hinactive : img.isActive = false)
    (opts : ListOptions) (limitF : Nat) (nameQ : String) (limitQ : Option Nat) :
    (getImageById db imageId).2 = Except.ok { img with viewCount := img.viewCount + 1 } ∧
    img ∉ (getAllImages db opts).1 ∧
    img ∉ findFeatured db limitF ∧
    (∀ e ∈ getHomepageData db, img ∉ e.images) ∧
    (∀ p ∈ findByCategoryName db nameQ limitQ, p.image ≠ img) := by
  refine ⟨?_, ?_, ?_, ?_, ?_⟩
  · simp [getImageById, hfind]
  · intro hmem
    simp only [getAllImages] at hmem
    have h2 := List.drop_subset _ _ (List.take_subset _ _ hmem)
    have h3 := (mem_insertionSort _ _ _).mp h2
    have h4 := (List.mem_filter.mp h3).2
    simp [hinactive] at h4
  · intro hmem
    simp only [findFeatured] at hmem
    have h3 := (mem_insertionSort _ _ _).mp (List.take_subset _ _ hmem)
    have h4 := (List.mem_filter.mp h3).2
    simp [hinactive] at h4
  · intro e he hmem
    simp only [getHomepageData] at he
    obtain ⟨cat, hcat, rfl⟩ := List.mem_map.mp he
    have hmem' : img ∈ (insertionSort newestFirst
        (db.images.filter (fun i => i.category == cat.id && i.isActive))).take 20 := hmem
    have h3 := (mem_insertionSort _ _ _).mp (List.take_subset _ _ hmem')
    have h4 := (List.mem_filter.mp h3).2
    simp [hinactive] at h4
  · intro p hp hpeq
    simp only [findByCategoryName] at hp
    obtain ⟨y, hy, rfl⟩ := List.mem_map.mp hp
    have h5 : y = img := hpeq
    have h2 : y ∈ insertionSort newestFirst (db.images.filter (fun i => i.isActive)) := by
      rcases limitQ with _ | l
      · exact hy
      · have hy' : y ∈ (if (l == 0) = true
            then insertionSort newestFirst (db.images.filter (fun i => i.isActive))
            else (insertionSort newestFirst (db.images.filter (fun i => i.isActive))).take l) := hy
        by_cases hl : (l == 0) = true
        · rw [if_pos hl] at hy'
          exact hy'
        · rw [if_neg hl] at hy'
          exact List.take_subset _ _ hy'
    have h4 := (List.mem_filter.mp ((mem_insertionSort _ _ _).mp h2)).2
    simp [h5, hinactive] at h4

/-- C9 witness: the concrete soft-deleted image is still served (and
counted) by `getImageById` while the featured listing excludes it. -/
theorem getImageById_ignores_isActive_witness :
    findImage hiddenDb 5 = some hiddenImg ∧
    hiddenImg.isActive = false ∧
    (getImageById hiddenDb 5).2 =
      Except.ok { hiddenImg with viewCount := hiddenImg.viewCount + 1 } ∧
    hiddenImg ∉ findFeatured hiddenDb 20 := by
  refine ⟨by decide, by decide, ?_, ?_⟩
  · exact (getImageById_ignores_isActive hiddenDb 5 hiddenImg (by decide) (by decide)
      ⟨1, 20, "createdAt", "desc", none, none, none⟩ 20 "halls" none).1
  · exact (getImageById_ignores_isActive hiddenDb 5 hiddenImg (by decide) (by decide)
      ⟨1, 20, "createdAt", "desc", none, none, none⟩ 20 "halls" none).2.2.1

end MHall
